import Mathlib

/-!
Shallow embedding of the `qparams` package (handlers/qparams/qparams.go) of the
golazy repository: the operator registry, the search-expression data model, the
validator `validateSearchRequest`, the middleware pipeline built by
`NewSearchHandler`, and the configuration resolver (global defaults plus
functional options).

Go `map[K]struct{}` allow-sets are modelled as `List K` with membership as the
set-membership test (insertion order is irrelevant to every membership check the
code performs).  Go `*int` becomes `Option Int`.  Go `error` values produced by
`errors.New` / `fmt.Errorf` are modelled as their message `String`.
-/

namespace Golazy.Qparams

/-- Go: `type LogicalOperator string`. -/
abbrev LogicalOperator := String

/-- Go: `AndOperator LogicalOperator = "and"`. -/
def AndOperator : LogicalOperator := "and"

/-- Go: `OrOperator LogicalOperator = "or"`. -/
def OrOperator : LogicalOperator := "or"

/-- Go: `func (o LogicalOperator) Symbol() string` — returns "or" for
`OrOperator` and defaults to "and" for every other token. -/
def LogicalOperator.Symbol (o : LogicalOperator) : String :=
  if o = OrOperator then OrOperator else AndOperator

/-- Go: the package-level registry `logicalOperators` (keys of the map literal). -/
def logicalOperators : List LogicalOperator := [AndOperator, OrOperator]

/-- Go: `type RelationalOperator string`. -/
abbrev RelationalOperator := String

/-- Go: `EqualsOperator RelationalOperator = "eq"`. -/
def EqualsOperator : RelationalOperator := "eq"

/-- Go: `NotEqualsOperator RelationalOperator = "ne"`. -/
def NotEqualsOperator : RelationalOperator := "ne"

/-- Go: `GreaterThanOperator RelationalOperator = "gt"`. -/
def GreaterThanOperator : RelationalOperator := "gt"

/-- Go: `GreaterThanEqualsOperator RelationalOperator = "gte"`. -/
def GreaterThanEqualsOperator : RelationalOperator := "gte"

/-- Go: `LowerThanOperator RelationalOperator = "lt"`. -/
def LowerThanOperator : RelationalOperator := "lt"

/-- Go: `LowerThanEqualsOperator RelationalOperator = "lte"`. -/
def LowerThanEqualsOperator : RelationalOperator := "lte"

/-- Go: `LikeOperator RelationalOperator = "like"`. -/
def LikeOperator : RelationalOperator := "like"

/-- Go: `ILikeOperator RelationalOperator = "ilike"`. -/
def ILikeOperator : RelationalOperator := "ilike"

/-- Go: `InOperator RelationalOperator = "in"`. -/
def InOperator : RelationalOperator := "in"

/-- Go: `func (o RelationalOperator) Symbol() string` — the switch over the
eight non-equality operators, defaulting to "=". -/
def RelationalOperator.Symbol (o : RelationalOperator) : String :=
  if o = NotEqualsOperator then "<>"
  else if o = GreaterThanOperator then ">"
  else if o = GreaterThanEqualsOperator then ">="
  else if o = LowerThanOperator then "<"
  else if o = LowerThanEqualsOperator then "<="
  else if o = LikeOperator then "like"
  else if o = ILikeOperator then "ilike"
  else if o = InOperator then "in"
  else "="

/-- Go: the package-level registry `relationalOperators` (keys of the map literal). -/
def relationalOperators : List RelationalOperator :=
  [EqualsOperator, NotEqualsOperator, GreaterThanOperator, GreaterThanEqualsOperator,
   LowerThanOperator, LowerThanEqualsOperator, LikeOperator, ILikeOperator, InOperator]

/-- Go: `type OrderDirection string`. -/
abbrev OrderDirection := String

/-- Go: `OrderAsc OrderDirection = "asc"`. -/
def OrderAsc : OrderDirection := "asc"

/-- Go: `OrderDesc OrderDirection = "desc"`. -/
def OrderDesc : OrderDirection := "desc"

/-- Go: `func (d OrderDirection) Symbol() string` — "desc" for `OrderDesc`,
defaulting to "asc". -/
def OrderDirection.Symbol (d : OrderDirection) : String :=
  if d = OrderDesc then OrderDesc else OrderAsc

/-- Go: `type Filter struct { Field string; Op RelationalOperator; Value string }`. -/
structure Filter where
  Field : String
  Op : RelationalOperator
  Value : String
deriving DecidableEq

/-- Go: `type FilterGroup struct { Op LogicalOperator; Filters []Filter;
Groups []FilterGroup }` — a recursive tree, hence an inductive type. -/
inductive FilterGroup where
  | mk (Op : LogicalOperator) (Filters : List Filter) (Groups : List FilterGroup)

/-- Accessor for the `Op` field of a `FilterGroup`. -/
def FilterGroup.Op : FilterGroup → LogicalOperator
  | .mk o _ _ => o

/-- Accessor for the `Filters` field of a `FilterGroup`. -/
def FilterGroup.Filters : FilterGroup → List Filter
  | .mk _ fs _ => fs

/-- Accessor for the `Groups` field of a `FilterGroup`. -/
def FilterGroup.Groups : FilterGroup → List FilterGroup
  | .mk _ _ gs => gs

/-- Go: `type OrderClause struct { Field string; Direction OrderDirection }`. -/
structure OrderClause where
  Field : String
  Direction : OrderDirection
deriving DecidableEq

/-- Go: `type SearchRequest struct { Groups *FilterGroup; OrderBy []OrderClause;
Limit *int; Offset *int }`. -/
structure SearchRequest where
  Groups : Option FilterGroup
  OrderBy : List OrderClause
  Limit : Option Int
  Offset : Option Int

/-- Go: `type config struct { ... }` — the per-handler configuration, with
allow-sets resolved to their contents.  The `errorHandler` field is a function
value; its invocations are modelled by the pipeline result (see
`PipelineResult`), so it does not appear here. -/
structure config where
  queryParam : String
  isSearchMandatory : Bool
  allowedLogicalOperators : List LogicalOperator
  allowedRelationalOperators : List RelationalOperator
  limit : Option Int
  allowedFilterFields : List String
  allowedOrderFields : List String

/-- Go idiom `p != nil && *p < 0` for a `*int`. -/
def ltZero : Option Int → Bool
  | some l => l < 0
  | none => false

/-- Go: the loop over `s.OrderBy` in `validateSearchRequest`: the first clause
whose `Field` is missing from `opts.allowedOrderFields` yields the error. -/
def validateOrderBy (opts : config) : List OrderClause → Option String
  | [] => none
  | o :: rest =>
    if o.Field ∈ opts.allowedOrderFields then validateOrderBy opts rest
    else some ("field \"" ++ o.Field ++ "\" not allowed in order by")

/-- Go: the loop over `g.Filters` inside `validateGroup`: for each filter the
field membership is checked first, then the operator membership. -/
def validateFilters (opts : config) : List Filter → Option String
  | [] => none
  | f :: rest =>
    if f.Field ∈ opts.allowedFilterFields then
      if f.Op ∈ opts.allowedRelationalOperators then validateFilters opts rest
      else some ("relational operator \"" ++ f.Op ++ "\" not allowed for field \"" ++ f.Field ++ "\"")
    else some ("field \"" ++ f.Field ++ "\" not allowed in filters")

mutual

/-- Go: the recursive closure `validateGroup` in `validateSearchRequest`,
applied to a non-nil group: logical-operator membership first, then the
filters, then the nested groups in order. -/
def validateGroup (opts : config) : FilterGroup → Option String
  | .mk op fs gs =>
    if op ∈ opts.allowedLogicalOperators then
      match validateFilters opts fs with
      | some e => some e
      | none => validateGroupList opts gs
    else some ("logical operator \"" ++ op ++ "\" not allowed")

/-- Go: the `for _, sg := range g.Groups` loop of `validateGroup`: recurse into
each nested group in order, returning the first error. -/
def validateGroupList (opts : config) : List FilterGroup → Option String
  | [] => none
  | g :: rest =>
    match validateGroup opts g with
    | some e => some e
    | none => validateGroupList opts rest

end

/-- Go: the `g == nil` guard of `validateGroup` (the root group pointer may be
nil, in which case validation is skipped). -/
def validateGroupOpt (opts : config) : Option FilterGroup → Option String
  | none => none
  | some g => validateGroup opts g

/-- The tail of `validateSearchRequest` after the limit checks: offset
non-negativity, then order-by fields, then the root filter group. -/
def validateAfterLimit (s : SearchRequest) (opts : config) : Option String :=
  if ltZero s.Offset then some "offset must be null or >= 0"
  else
    match validateOrderBy opts s.OrderBy with
    | some e => some e
    | none => validateGroupOpt opts s.Groups

/-- Go: `func validateSearchRequest(s *SearchRequest, opts *config) error`,
with `none` for the nil error.  The early-return sequence of the Go function is
rendered as nested conditionals in the same order: limit non-negativity; if
`opts.limit` is set, limit presence then the `*s.Limit > *opts.limit` ceiling
check; then `validateAfterLimit`. -/
def validateSearchRequest (s : SearchRequest) (opts : config) : Option String :=
  if ltZero s.Limit then some "limit must be null or >= 0"
  else
    match opts.limit with
    | some m =>
      match s.Limit with
      | none => some "limit is mandatory"
      | some l =>
        if l > m then some ("limit must be between 0 and " ++ toString m)
        else validateAfterLimit s opts
    | none => validateAfterLimit s opts

/-! ## Pipeline adapter

The middleware returned by `NewSearchHandler` (lines 557–588 of qparams.go): it
reads the configured query parameter, handles absence against the mandatory
flag, decodes, validates, and either invokes the error handler or the
downstream handler.  The observable effects of one request are collected in a
`PipelineResult`; the JSON decoder (Go `encoding/json`, outside this package)
is a parameter of the step function. -/

/-- The three kinds of `error` values the middleware hands to the error
handler: the `fmt.Errorf("missing %q query parameter", ...)` error, a decoder
error, and a `validateSearchRequest` error. -/
inductive HandlerErr where
  | missingParam (param : String)
  | decodeErr (msg : String)
  | validationErr (msg : String)
deriving DecidableEq

/-- Observable effects of running the middleware on one request:
the errors passed to `c.errorHandler` in order, whether `next.ServeHTTP` ran,
the `SearchRequest` stored under `searchKey` in the context seen by the
downstream handler (if any), and whether the JSON decoder was invoked. -/
structure PipelineResult where
  callbackErrors : List HandlerErr
  downstreamCalled : Bool
  attachedSearch : Option SearchRequest
  decodeInvoked : Bool

/-- Go: `r.URL.Query().Get(key)` — the first value associated with the key in
the parsed query, or the empty string when the key is absent. -/
def queryGet (q : List (String × String)) (key : String) : String :=
  match q.find? (fun p => p.1 == key) with
  | some p => p.2
  | none => ""

/-- Go: the body of the `http.HandlerFunc` built by `NewSearchHandler`
(lines 558–587), for a resolved configuration `c`: `query` is the request URL
query and `decode` the strict JSON decoder for `SearchRequest`. -/
def searchHandlerStep (c : config) (decode : String → Except String SearchRequest)
    (query : List (String × String)) : PipelineResult :=
  let s := queryGet query c.queryParam
  if s = "" then
    if !c.isSearchMandatory then
      { callbackErrors := [], downstreamCalled := true, attachedSearch := none,
        decodeInvoked := false }
    else
      { callbackErrors := [.missingParam c.queryParam], downstreamCalled := false,
        attachedSearch := none, decodeInvoked := false }
  else
    match decode s with
    | .error e =>
      { callbackErrors := [.decodeErr e], downstreamCalled := false,
        attachedSearch := none, decodeInvoked := true }
    | .ok search =>
      match validateSearchRequest search c with
      | some verr =>
        { callbackErrors := [.validationErr verr], downstreamCalled := false,
          attachedSearch := none, decodeInvoked := true }
      | none =>
        { callbackErrors := [], downstreamCalled := true,
          attachedSearch := some search, decodeInvoked := true }

/-! ## Configuration resolver

Go maps are reference values.  `NewSearchHandler` initializes its `config` with
`allowedFilterFields: defaultFilterFields` (and likewise for the other three
map-valued fields), which copies the map *reference*, not its contents; no
option and no setter ever allocates a new map, so every handler's allow-set
fields alias the package-level default map objects for the whole process
lifetime.  The embedding makes that explicit with a store of map cells indexed
by `Nat` references: `config`-level map fields hold references, and mutation
(`clear` + re-insertion) is an update of the referenced cell.  `clear(m)`
followed by inserting the elements of `fields` leaves the cell containing
exactly `fields`. -/

/-- The heap of Go map objects used by the package: string-set cells (filter
fields, order fields), logical-operator cells and relational-operator cells. -/
structure Store where
  strCells : Nat → List String
  logCells : Nat → List LogicalOperator
  relCells : Nat → List RelationalOperator

/-- Reference of the map object held by the package variable
`defaultFilterFields`. -/
def defaultFilterFieldsRef : Nat := 0

/-- Reference of the map object held by the package variable
`defaultOrderFields`. -/
def defaultOrderFieldsRef : Nat := 1

/-- Reference of the map object held by the package variables
`logicalOperators` and `defaultLogicalOperators` (the Go initializer
`defaultLogicalOperators = logicalOperators` copies the reference, so both
variables name the same map object). -/
def defaultLogicalOperatorsRef : Nat := 0

/-- Reference of the map object held by the package variables
`relationalOperators` and `defaultRelationalOperators` (same aliasing). -/
def defaultRelationalOperatorsRef : Nat := 0

/-- The scalar (non-map) package-level defaults: `defaultQueryParam`,
`defaultSearchMandatory`, `defaultLimit`. -/
structure ScalarDefaults where
  defaultQueryParam : String
  defaultSearchMandatory : Bool
  defaultLimit : Option Int

/-- Go: `type config struct` as it exists before resolution — its four
map-valued fields are references into the `Store`. -/
structure configRef where
  queryParam : String
  isSearchMandatory : Bool
  allowedLogicalOperators : Nat
  allowedRelationalOperators : Nat
  limit : Option Int
  allowedFilterFields : Nat
  allowedOrderFields : Nat

/-- Go: `type Option func(*config)` — an option mutates the config record and,
through the map references it holds, the store of map objects. -/
def GoOption := configRef × Store → configRef × Store

/-- Go: `WithQueryParam`. -/
def WithQueryParam (p : String) : GoOption :=
  fun cs => ({ cs.1 with queryParam := p }, cs.2)

/-- Go: `WithSearchMandatory`. -/
def WithSearchMandatory (m : Bool) : GoOption :=
  fun cs => ({ cs.1 with isSearchMandatory := m }, cs.2)

/-- Go: `WithLimit` — negative means "no limit". -/
def WithLimit (l : Int) : GoOption :=
  fun cs => ({ cs.1 with limit := if l < 0 then none else some l }, cs.2)

/-- Go: `WithFilterFields` — `clear(c.allowedFilterFields)` then insert the
given fields: the cell referenced by the config is overwritten. -/
def WithFilterFields (fields : List String) : GoOption :=
  fun cs =>
    (cs.1, { cs.2 with strCells := fun n =>
      if n = cs.1.allowedFilterFields then fields else cs.2.strCells n })

/-- Go: `WithExtraFilterFields` — insert without clearing. -/
def WithExtraFilterFields (fields : List String) : GoOption :=
  fun cs =>
    (cs.1, { cs.2 with strCells := fun n =>
      if n = cs.1.allowedFilterFields then cs.2.strCells n ++ fields else cs.2.strCells n })

/-- Go: `WithOrderFields` — clear then insert into the referenced cell. -/
def WithOrderFields (fields : List String) : GoOption :=
  fun cs =>
    (cs.1, { cs.2 with strCells := fun n =>
      if n = cs.1.allowedOrderFields then fields else cs.2.strCells n })

/-- Go: `WithExtraOrderFields` — insert without clearing. -/
def WithExtraOrderFields (fields : List String) : GoOption :=
  fun cs =>
    (cs.1, { cs.2 with strCells := fun n =>
      if n = cs.1.allowedOrderFields then cs.2.strCells n ++ fields else cs.2.strCells n })

/-- Go: `WithLogicalOperators` — clear then insert into the referenced cell. -/
def WithLogicalOperators (operators : List LogicalOperator) : GoOption :=
  fun cs =>
    (cs.1, { cs.2 with logCells := fun n =>
      if n = cs.1.allowedLogicalOperators then operators else cs.2.logCells n })

/-- Go: `WithRelationalOperators` — clear then insert into the referenced cell. -/
def WithRelationalOperators (operators : List RelationalOperator) : GoOption :=
  fun cs =>
    (cs.1, { cs.2 with relCells := fun n =>
      if n = cs.1.allowedRelationalOperators then operators else cs.2.relCells n })

/-- Go: `SetDefaultFilterFields` — clear then repopulate the map object
referenced by `defaultFilterFields`. -/
def SetDefaultFilterFields (fields : List String) (st : Store) : Store :=
  { st with strCells := fun n =>
      if n = defaultFilterFieldsRef then fields else st.strCells n }

/-- Go: `SetDefaultOrderFields`. -/
def SetDefaultOrderFields (fields : List String) (st : Store) : Store :=
  { st with strCells := fun n =>
      if n = defaultOrderFieldsRef then fields else st.strCells n }

/-- Go: lines 542–555 of `NewSearchHandler`: build the initial `config` from
the package defaults (copying scalar values and map references), then apply the
options in the order supplied. -/
def NewSearchHandlerConfig (d : ScalarDefaults) (opts : List GoOption)
    (st : Store) : configRef × Store :=
  opts.foldl (fun acc opt => opt acc)
    ({ queryParam := d.defaultQueryParam,
       isSearchMandatory := d.defaultSearchMandatory,
       allowedLogicalOperators := defaultLogicalOperatorsRef,
       allowedRelationalOperators := defaultRelationalOperatorsRef,
       limit := d.defaultLimit,
       allowedFilterFields := defaultFilterFieldsRef,
       allowedOrderFields := defaultOrderFieldsRef }, st)

/-- Read a handler's effective policy: dereference its map fields in a store.
This is what `validateSearchRequest` sees when the handler later serves a
request against that store state. -/
def resolveConfig (c : configRef) (st : Store) : config :=
  { queryParam := c.queryParam,
    isSearchMandatory := c.isSearchMandatory,
    allowedLogicalOperators := st.logCells c.allowedLogicalOperators,
    allowedRelationalOperators := st.relCells c.allowedRelationalOperators,
    limit := c.limit,
    allowedFilterFields := st.strCells c.allowedFilterFields,
    allowedOrderFields := st.strCells c.allowedOrderFields }

/-! ## Specification-side definitions

The following definitions are written from the spec's words, to be compared
with the source-derived validator above.  Section 4.3 of the spec prescribes a
fixed check order: limit non-negativity; limit presence then ceiling when the
policy defines a maximum; offset non-negativity; each order clause in order;
then depth-first pre-order descent into the root group (operator first, then
each filter field-then-operator in sequence, then each subgroup in sequence).
Each individual check is an `Option String` (`none` = pass), and the validator
is claimed to return the first `some` of the concatenated check list. -/

/-- Spec check 1: `limit` non-negativity (if present). -/
def limitNonNegCheck (s : SearchRequest) : Option String :=
  if ltZero s.Limit then some "limit must be null or >= 0" else none

/-- Spec check 2a: if the policy defines `maxLimit`, `limit` presence is
mandatory. -/
def limitMandatoryCheck (s : SearchRequest) (opts : config) : Option String :=
  match opts.limit, s.Limit with
  | some _, none => some "limit is mandatory"
  | _, _ => none

/-- Spec check 2b: if the policy defines `maxLimit` and `limit` is present,
`limit` must not exceed the ceiling. -/
def limitCeilingCheck (s : SearchRequest) (opts : config) : Option String :=
  match opts.limit, s.Limit with
  | some m, some l =>
    if l > m then some ("limit must be between 0 and " ++ toString m) else none
  | _, _ => none

/-- Spec check 3: `offset` non-negativity (if present). -/
def offsetNonNegCheck (s : SearchRequest) : Option String :=
  if ltZero s.Offset then some "offset must be null or >= 0" else none

/-- Spec check 4: each order clause's field against `allowedOrderFields`, in
clause order. -/
def orderFieldChecks (opts : config) (os : List OrderClause) : List (Option String) :=
  os.map (fun o =>
    if o.Field ∈ opts.allowedOrderFields then none
    else some ("field \"" ++ o.Field ++ "\" not allowed in order by"))

/-- Spec: a filter's field membership check. -/
def filterFieldCheck (opts : config) (f : Filter) : Option String :=
  if f.Field ∈ opts.allowedFilterFields then none
  else some ("field \"" ++ f.Field ++ "\" not allowed in filters")

/-- Spec: a filter's operator membership check. -/
def filterOpCheck (opts : config) (f : Filter) : Option String :=
  if f.Op ∈ opts.allowedRelationalOperators then none
  else some ("relational operator \"" ++ f.Op ++ "\" not allowed for field \"" ++ f.Field ++ "\"")

/-- Spec: per-filter checks in sequence order, field membership before operator
membership. -/
def filterChecks (opts : config) : List Filter → List (Option String)
  | [] => []
  | f :: rest => filterFieldCheck opts f :: filterOpCheck opts f :: filterChecks opts rest

mutual

/-- Spec check 5 (one group): the depth-first pre-order check list of a group —
its logical operator first, then its filters in sequence order, then the check
lists of its subgroups in sequence order. -/
def groupChecks (opts : config) : FilterGroup → List (Option String)
  | .mk op fs gs =>
    (if op ∈ opts.allowedLogicalOperators then none
     else some ("logical operator \"" ++ op ++ "\" not allowed"))
      :: (filterChecks opts fs ++ groupListChecks opts gs)

/-- Spec check 5 (sibling groups): concatenation of the check lists of the
groups, in declaration order. -/
def groupListChecks (opts : config) : List FilterGroup → List (Option String)
  | [] => []
  | g :: rest => groupChecks opts g ++ groupListChecks opts rest

end

/-- Spec check 5 (root): skipped entirely when the root group is absent. -/
def rootGroupChecks (opts : config) : Option FilterGroup → List (Option String)
  | none => []
  | some g => groupChecks opts g

/-- The full check list of spec §4.3, in the spec's stated order. -/
def specChecks (s : SearchRequest) (opts : config) : List (Option String) :=
  limitNonNegCheck s :: limitMandatoryCheck s opts :: limitCeilingCheck s opts ::
    offsetNonNegCheck s :: (orderFieldChecks opts s.OrderBy ++ rootGroupChecks opts s.Groups)

mutual

/-- The validity predicate on a filter-group tree: every group operator is in
`allowedLogicalOperators`, every filter field in `allowedFilterFields`, every
filter operator in `allowedRelationalOperators`, recursively. -/
def groupOk (opts : config) : FilterGroup → Bool
  | .mk op fs gs =>
    decide (op ∈ opts.allowedLogicalOperators)
      && fs.all (fun f => decide (f.Field ∈ opts.allowedFilterFields)
            && decide (f.Op ∈ opts.allowedRelationalOperators))
      && groupsOk opts gs

/-- `groupOk` over a list of sibling groups. -/
def groupsOk (opts : config) : List FilterGroup → Bool
  | [] => true
  | g :: rest => groupOk opts g && groupsOk opts rest

end

/-! ## Helper lemmas -/

/-- First-`some` of a concatenated check list: the left part is consulted
first. -/
theorem findSomeId_append {α : Type} (l1 l2 : List (Option α)) :
    (l1 ++ l2).findSome? id =
      match l1.findSome? id with
      | some e => some e
      | none => l2.findSome? id := by
  induction l1 with
  | nil => simp
  | cons a l ih =>
    cases a with
    | none => simpa using ih
    | some e => simp

/-- The order-by loop returns the first `some` of the order-field check list. -/
theorem validateOrderBy_eq (opts : config) (os : List OrderClause) :
    validateOrderBy opts os = (orderFieldChecks opts os).findSome? id := by
  induction os with
  | nil => simp [validateOrderBy, orderFieldChecks]
  | cons o rest ih =>
    by_cases h : o.Field ∈ opts.allowedOrderFields
    · simpa [validateOrderBy, orderFieldChecks, h] using ih
    · simp [validateOrderBy, orderFieldChecks, h]

/-- The filter loop returns the first `some` of the per-filter check list
(field check before operator check for each filter). -/
theorem validateFilters_eq (opts : config) (fs : List Filter) :
    validateFilters opts fs = (filterChecks opts fs).findSome? id := by
  induction fs with
  | nil => simp [validateFilters, filterChecks]
  | cons f rest ih =>
    by_cases hf : f.Field ∈ opts.allowedFilterFields
    · by_cases ho : f.Op ∈ opts.allowedRelationalOperators
      · simpa [validateFilters, filterChecks, filterFieldCheck, filterOpCheck, hf, ho] using ih
      · simp [validateFilters, filterChecks, filterFieldCheck, filterOpCheck, hf, ho]
    · simp [validateFilters, filterChecks, filterFieldCheck, hf]

mutual

/-- `validateGroup` returns the first `some` of the depth-first pre-order
check list of the group. -/
theorem validateGroup_eq (opts : config) (g : FilterGroup) :
    validateGroup opts g = (groupChecks opts g).findSome? id := by
  cases g with
  | mk op fs gs =>
    by_cases h : op ∈ opts.allowedLogicalOperators
    · simp only [validateGroup, groupChecks, h, if_pos, List.findSome?_cons, id]
      rw [findSomeId_append, ← validateFilters_eq opts fs, ← validateGroupList_eq opts gs]
      cases validateFilters opts fs <;> simp
    · simp [validateGroup, groupChecks, h]

/-- `validateGroupList` returns the first `some` of the concatenated check
lists of the sibling groups. -/
theorem validateGroupList_eq (opts : config) (gs : List FilterGroup) :
    validateGroupList opts gs = (groupListChecks opts gs).findSome? id := by
  cases gs with
  | nil => simp [validateGroupList, groupListChecks]
  | cons g rest =>
    simp only [validateGroupList, groupListChecks]
    rw [findSomeId_append, ← validateGroup_eq opts g, ← validateGroupList_eq opts rest]
    cases validateGroup opts g <;> simp

end

/-- The tail of the validator (offset, order clauses, root group) returns the
first `some` of the corresponding tail of the spec's check list. -/
theorem validateAfterLimit_eq (s : SearchRequest) (opts : config) :
    validateAfterLimit s opts =
      (offsetNonNegCheck s ::
        (orderFieldChecks opts s.OrderBy ++ rootGroupChecks opts s.Groups)).findSome? id := by
  by_cases h : ltZero s.Offset
  · simp [validateAfterLimit, offsetNonNegCheck, h]
  · simp only [validateAfterLimit, offsetNonNegCheck, h, if_neg, List.findSome?_cons, id,
      Bool.false_eq_true, not_false_eq_true]
    rw [findSomeId_append, ← validateOrderBy_eq]
    cases validateOrderBy opts s.OrderBy with
    | some e => simp
    | none =>
      cases hg : s.Groups with
      | none => simp [validateGroupOpt, rootGroupChecks]
      | some g => simp [validateGroupOpt, rootGroupChecks, validateGroup_eq]

/-- The order-by loop succeeds exactly when every clause's field is allowed. -/
theorem validateOrderBy_none_iff (opts : config) (os : List OrderClause) :
    validateOrderBy opts os = none ↔ ∀ o ∈ os, o.Field ∈ opts.allowedOrderFields := by
  induction os with
  | nil => simp [validateOrderBy]
  | cons o rest ih =>
    by_cases h : o.Field ∈ opts.allowedOrderFields
    · simp [validateOrderBy, h, ih]
    · simp [validateOrderBy, h]

/-- The filter loop succeeds exactly when every filter's field and operator
are allowed. -/
theorem validateFilters_none_iff (opts : config) (fs : List Filter) :
    validateFilters opts fs = none ↔
      ∀ f ∈ fs, f.Field ∈ opts.allowedFilterFields ∧ f.Op ∈ opts.allowedRelationalOperators := by
  induction fs with
  | nil => simp [validateFilters]
  | cons f rest ih =>
    by_cases hf : f.Field ∈ opts.allowedFilterFields
    · by_cases ho : f.Op ∈ opts.allowedRelationalOperators
      · simp [validateFilters, hf, ho, ih]
      · simp [validateFilters, hf, ho]
    · simp [validateFilters, hf]

/-- Bool form of `validateFilters_none_iff`, matching the conjunct of
`groupOk`. -/
theorem validateFilters_none_iff_all (opts : config) (fs : List Filter) :
    validateFilters opts fs = none ↔
      (fs.all fun f => decide (f.Field ∈ opts.allowedFilterFields) &&
        decide (f.Op ∈ opts.allowedRelationalOperators)) = true := by
  rw [validateFilters_none_iff]
  simp [List.all_eq_true]

mutual

/-- `validateGroup` succeeds exactly on trees satisfying `groupOk`. -/
theorem validateGroup_none_iff (opts : config) (g : FilterGroup) :
    validateGroup opts g = none ↔ groupOk opts g = true := by
  cases g with
  | mk op fs gs =>
    by_cases h : op ∈ opts.allowedLogicalOperators
    · rw [show validateGroup opts (.mk op fs gs) =
          (match validateFilters opts fs with
           | some e => some e
           | none => validateGroupList opts gs) from by simp [validateGroup, h]]
      cases hv : validateFilters opts fs with
      | some e =>
        have hall : ¬ (fs.all fun f => decide (f.Field ∈ opts.allowedFilterFields) &&
            decide (f.Op ∈ opts.allowedRelationalOperators)) = true := by
          intro hb
          have hnone := (validateFilters_none_iff_all opts fs).mpr hb
          rw [hv] at hnone
          exact Option.noConfusion hnone
        simp [groupOk, Bool.and_eq_true, hall]
      | none =>
        have hall : (fs.all fun f => decide (f.Field ∈ opts.allowedFilterFields) &&
            decide (f.Op ∈ opts.allowedRelationalOperators)) = true :=
          (validateFilters_none_iff_all opts fs).mp hv
        rw [validateGroupList_none_iff opts gs]
        simp [groupOk, Bool.and_eq_true, hall, h]
    · simp [validateGroup, groupOk, h]

/-- `validateGroupList` succeeds exactly on lists of trees satisfying
`groupsOk`. -/
theorem validateGroupList_none_iff (opts : config) (gs : List FilterGroup) :
    validateGroupList opts gs = none ↔ groupsOk opts gs = true := by
  cases gs with
  | nil => simp [validateGroupList, groupsOk]
  | cons g rest =>
    rw [show validateGroupList opts (g :: rest) =
        (match validateGroup opts g with
         | some e => some e
         | none => validateGroupList opts rest) from by simp [validateGroupList]]
    cases hg : validateGroup opts g with
    | some e =>
      have hng : ¬ groupOk opts g = true := by
        intro hb
        have hnone := (validateGroup_none_iff opts g).mpr hb
        rw [hg] at hnone
        exact Option.noConfusion hnone
      simp [groupsOk, hng]
    | none =>
      have hok : groupOk opts g = true := (validateGroup_none_iff opts g).mp hg
      rw [validateGroupList_none_iff opts rest]
      simp [groupsOk, hok]

end

/-- The validator's tail succeeds exactly when offset, order clauses and the
root group are all valid. -/
theorem validateAfterLimit_none_iff (s : SearchRequest) (opts : config) :
    validateAfterLimit s opts = none ↔
      ((∀ o, s.Offset = some o → 0 ≤ o) ∧
       (∀ oc ∈ s.OrderBy, oc.Field ∈ opts.allowedOrderFields) ∧
       (∀ g, s.Groups = some g → groupOk opts g = true)) := by
  by_cases hz : ltZero s.Offset
  · obtain ⟨o, ho, honeg⟩ : ∃ o, s.Offset = some o ∧ o < 0 := by
      cases hq : s.Offset with
      | none => rw [hq] at hz; simp [ltZero] at hz
      | some o =>
        rw [hq] at hz
        simp only [ltZero, decide_eq_true_eq] at hz
        exact ⟨o, rfl, hz⟩
    rw [show validateAfterLimit s opts = some "offset must be null or >= 0" from by
      simp [validateAfterLimit, hz]]
    constructor
    · intro hc; exact absurd hc (by simp)
    · rintro ⟨hoff, -, -⟩; exact absurd (hoff o ho) (by omega)
  · have hoff : ∀ o, s.Offset = some o → 0 ≤ o := by
      intro o ho
      rw [ho] at hz
      simp only [ltZero, decide_eq_true_eq] at hz
      omega
    rw [show validateAfterLimit s opts =
        (match validateOrderBy opts s.OrderBy with
         | some e => some e
         | none => validateGroupOpt opts s.Groups) from by
      simp [validateAfterLimit, hz]]
    cases hob : validateOrderBy opts s.OrderBy with
    | some e =>
      have hnord : ¬ ∀ oc ∈ s.OrderBy, oc.Field ∈ opts.allowedOrderFields := by
        intro hb
        have hnone := (validateOrderBy_none_iff opts s.OrderBy).mpr hb
        rw [hob] at hnone
        exact Option.noConfusion hnone
      constructor
      · intro hc; exact absurd hc (by simp)
      · rintro ⟨-, hord, -⟩; exact absurd hord hnord
    | none =>
      have hord : ∀ oc ∈ s.OrderBy, oc.Field ∈ opts.allowedOrderFields :=
        (validateOrderBy_none_iff opts s.OrderBy).mp hob
      cases hg : s.Groups with
      | none =>
        simp only [validateGroupOpt]
        constructor
        · intro _
          exact ⟨hoff, hord, fun g hgg => Option.noConfusion hgg⟩
        · intro _; trivial
      | some g =>
        simp only [validateGroupOpt]
        rw [validateGroup_none_iff opts g]
        constructor
        · intro hgg
          refine ⟨hoff, hord, ?_⟩
          intro gg hgg2
          injection hgg2 with h2
          rw [← h2]
          exact hgg
        · rintro ⟨-, -, hgg⟩; exact hgg g rfl

/-! ## Claim theorems -/

/-- C1: `validateSearchRequest` succeeds (returns the nil error) exactly when:
the limit, if present, is non-negative; if the policy sets `maxLimit` then the
limit is present and at most `maxLimit`; the offset, if present, is
non-negative; every order clause's field is an allowed order field; and every
group operator, filter field and filter operator in the (possibly absent) root
group tree is in the corresponding allow-set (`groupOk`). -/
theorem validateSearchRequest_none_iff (s : SearchRequest) (opts : config) :
    validateSearchRequest s opts = none ↔
      ((∀ l, s.Limit = some l → 0 ≤ l) ∧
       (∀ m, opts.limit = some m → ∃ l, s.Limit = some l ∧ l ≤ m) ∧
       (∀ o, s.Offset = some o → 0 ≤ o) ∧
       (∀ oc ∈ s.OrderBy, oc.Field ∈ opts.allowedOrderFields) ∧
       (∀ g, s.Groups = some g → groupOk opts g = true)) := by
  by_cases hz : ltZero s.Limit
  · obtain ⟨l, hl, hneg⟩ : ∃ l, s.Limit = some l ∧ l < 0 := by
      cases hq : s.Limit with
      | none => rw [hq] at hz; simp [ltZero] at hz
      | some l =>
        rw [hq] at hz
        simp only [ltZero, decide_eq_true_eq] at hz
        exact ⟨l, rfl, hz⟩
    rw [show validateSearchRequest s opts = some "limit must be null or >= 0" from by
      simp [validateSearchRequest, hz]]
    constructor
    · intro hc; exact absurd hc (by simp)
    · rintro ⟨hlim, -⟩; exact absurd (hlim l hl) (by omega)
  · cases hm : opts.limit with
    | none =>
      have hlim : ∀ l, s.Limit = some l → 0 ≤ l := by
        intro l hl
        rw [hl] at hz
        simp only [ltZero, decide_eq_true_eq] at hz
        omega
      rw [show validateSearchRequest s opts = validateAfterLimit s opts from by
        simp [validateSearchRequest, hz, hm]]
      rw [validateAfterLimit_none_iff]
      constructor
      · rintro ⟨hoff, hord, hg⟩
        exact ⟨hlim, fun m hmm => Option.noConfusion hmm, hoff, hord, hg⟩
      · rintro ⟨-, -, hoff, hord, hg⟩; exact ⟨hoff, hord, hg⟩
    | some m =>
      cases hl : s.Limit with
      | none =>
        rw [show validateSearchRequest s opts = some "limit is mandatory" from by
          simp [validateSearchRequest, hm, hl, ltZero]]
        constructor
        · intro hc; exact absurd hc (by simp)
        · rintro ⟨-, hmand, -⟩
          obtain ⟨l, hl2, -⟩ := hmand m rfl
          exact Option.noConfusion hl2
      | some l =>
        have hl0 : 0 ≤ l := by
          rw [hl] at hz
          simp only [ltZero, decide_eq_true_eq] at hz
          omega
        have hnl : ¬ l < 0 := by omega
        by_cases hgt : l > m
        · rw [show validateSearchRequest s opts =
              some ("limit must be between 0 and " ++ toString m) from by
            simp [validateSearchRequest, hm, hl, hgt, ltZero, hnl]]
          constructor
          · intro hc; exact absurd hc (by simp)
          · rintro ⟨-, hmand, -⟩
            obtain ⟨l2, hl2, hle⟩ := hmand m rfl
            injection hl2 with h2
            omega
        · rw [show validateSearchRequest s opts = validateAfterLimit s opts from by
            simp [validateSearchRequest, hm, hl, hgt, ltZero, hnl]]
          rw [validateAfterLimit_none_iff]
          constructor
          · rintro ⟨hoff, hord, hg⟩
            refine ⟨?_, ?_, hoff, hord, hg⟩
            · intro x hx; injection hx with h2; omega
            · intro m2 hm2
              injection hm2 with h3
              exact ⟨l, rfl, by omega⟩
          · rintro ⟨-, -, hoff, hord, hg⟩; exact ⟨hoff, hord, hg⟩

/-- C5: `validateSearchRequest` is fail-fast with the fixed check order of
spec §4.3: its result is the first `some` of the check list `specChecks` —
(1) limit non-negativity, (2) limit presence then ceiling when the policy sets
a maximum, (3) offset non-negativity, (4) order-clause fields in clause order,
(5) depth-first pre-order descent into the root group.  A request violating
several invariants therefore yields the error of the earliest check. -/
theorem validateSearchRequest_firstViolation (s : SearchRequest) (opts : config) :
    validateSearchRequest s opts = (specChecks s opts).findSome? id := by
  by_cases h1 : ltZero s.Limit
  · simp [validateSearchRequest, specChecks, limitNonNegCheck, h1]
  · cases hm : opts.limit with
    | none =>
      simp [validateSearchRequest, specChecks, limitNonNegCheck, limitMandatoryCheck,
        limitCeilingCheck, h1, hm, validateAfterLimit_eq s opts]
    | some m =>
      cases hl : s.Limit with
      | none =>
        rw [hl] at h1
        simp [validateSearchRequest, specChecks, limitNonNegCheck, limitMandatoryCheck,
          ltZero, h1, hm, hl]
      | some l =>
        rw [hl] at h1
        simp only [ltZero, decide_eq_true_eq] at h1
        by_cases h2 : l > m
        · simp [validateSearchRequest, specChecks, limitNonNegCheck, limitMandatoryCheck,
            limitCeilingCheck, ltZero, h1, hm, hl, h2]
        · simp [validateSearchRequest, specChecks, limitNonNegCheck, limitMandatoryCheck,
            limitCeilingCheck, ltZero, h1, hm, hl, h2, validateAfterLimit_eq s opts]

/-- C6: filter-group validation is depth-first pre-order in declaration order:
`validateGroup` returns the first `some` of `groupChecks`, the flattened list
whose order is — the group's logical-operator check, then for each filter of
the group in sequence its field check then its operator check, then the check
lists of the nested subgroups in sequence order.  In particular a violation
inside a second-level group is reported only after every filter check of its
parent group, never before. -/
theorem validateGroup_depthFirst_preorder (opts : config) (g : FilterGroup) :
    validateGroup opts g = (groupChecks opts g).findSome? id :=
  validateGroup_eq opts g

/-- C9: `Symbol` is total (it is a Lean function) and for every token outside
the nine relational operators it returns the equality symbol "=", while for
every token outside the two logical operators it returns the conjunction
symbol "and". -/
theorem Symbol_default_tokens (t : String) :
    (t ∉ relationalOperators → RelationalOperator.Symbol t = "=") ∧
    (t ∉ logicalOperators → LogicalOperator.Symbol t = AndOperator) := by
  constructor
  · intro h
    simp only [relationalOperators, List.mem_cons, List.not_mem_nil, or_false,
      not_or] at h
    obtain ⟨h1, h2, h3, h4, h5, h6, h7, h8, h9⟩ := h
    simp [RelationalOperator.Symbol, h2, h3, h4, h5, h6, h7, h8, h9]
  · intro h
    simp only [logicalOperators, List.mem_cons, List.not_mem_nil, or_false,
      not_or] at h
    simp [LogicalOperator.Symbol, h.2]

/-- C2 counterexample: against a policy that sets `maxLimit` (here 10), the
empty specification (absent root group, no order clauses, no limit, no offset)
does NOT validate — the code returns the "limit is mandatory" error, refuting
the claim that it validates against every policy. -/
theorem emptySearch_maxLimit_rejected :
    validateSearchRequest ⟨none, [], none, none⟩
        ⟨"q", true, logicalOperators, relationalOperators, some 10, [], []⟩ =
      some "limit is mandatory" ∧
    validateSearchRequest ⟨none, [], none, none⟩
        ⟨"q", true, logicalOperators, relationalOperators, some 10, [], []⟩ ≠ none := by
  refine ⟨rfl, ?_⟩
  intro h
  exact Option.noConfusion (h.symm.trans rfl)

/-- C2 amended: a `SearchRequest` with absent root group, no order clauses, no
limit and no offset validates successfully against every policy whose
`maxLimit` is unset (`opts.limit = none`); when the policy sets `maxLimit`,
the same request is rejected with "limit is mandatory". -/
theorem emptySearch_validates_no_maxLimit (opts : config) (h : opts.limit = none) :
    validateSearchRequest ⟨none, [], none, none⟩ opts = none := by
  simp [validateSearchRequest, ltZero, h, validateAfterLimit, validateOrderBy,
    validateGroupOpt]

/-- Witness for `emptySearch_validates_no_maxLimit` at a concrete policy. -/
theorem emptySearch_validates_no_maxLimit_witness :
    validateSearchRequest ⟨none, [], none, none⟩
      ⟨"q", true, logicalOperators, relationalOperators, none, [], []⟩ = none :=
  emptySearch_validates_no_maxLimit
    ⟨"q", true, logicalOperators, relationalOperators, none, [], []⟩ rfl

/-- A store state as left by single-threaded initialization that ran
`SetDefaultFilterFields("id")`: the map object referenced by
`defaultFilterFields` holds exactly the field "id", the default order-fields
map is empty, and the operator registries hold the full operator sets. -/
def st0 : Store :=
  { strCells := fun n => if n = defaultFilterFieldsRef then ["id"] else [],
    logCells := fun _ => logicalOperators,
    relCells := fun _ => relationalOperators }

/-- The scalar package defaults as shipped: parameter name "q", search
mandatory, no default limit. -/
def d0 : ScalarDefaults :=
  { defaultQueryParam := "q", defaultSearchMandatory := true, defaultLimit := none }

/-- C3 (refutation at the failing input): `NewSearchHandler` copies map
references, not map contents, so the per-instance option
`WithFilterFields("name")` clears and repopulates the process-wide
`defaultFilterFields` map itself — after construction the default set is
["name"], no longer ["id"]; and conversely a later
`SetDefaultFilterFields("x")` changes the effective policy of a handler that
was already constructed (its resolved allow-set becomes ["x"]). -/
theorem newSearchHandler_aliases_defaults :
    ((NewSearchHandlerConfig d0 [WithFilterFields ["name"]] st0).2.strCells
        defaultFilterFieldsRef = ["name"]) ∧
    (st0.strCells defaultFilterFieldsRef = ["id"]) ∧
    ((resolveConfig (NewSearchHandlerConfig d0 [] st0).1
        (SetDefaultFilterFields ["x"] (NewSearchHandlerConfig d0 [] st0).2)).allowedFilterFields
      = ["x"]) ∧
    ((resolveConfig (NewSearchHandlerConfig d0 [] st0).1
        (NewSearchHandlerConfig d0 [] st0).2).allowedFilterFields = ["id"]) :=
  ⟨rfl, rfl, rfl, rfl⟩

/-- C8 counterexample: the `InvalidLimit` error does not carry the offending
value — requests with limits -5 and -7 produce the identical constant message
"limit must be null or >= 0" (likewise `InvalidOffset` and `LimitMandatory`
are constant messages), refuting the claim that all eight validation-error
variants carry the offending field/operator/value. -/
theorem invalidLimit_error_carries_no_value :
    validateSearchRequest ⟨none, [], some (-5), none⟩
        ⟨"q", true, logicalOperators, relationalOperators, none, ["id"], ["id"]⟩ =
      validateSearchRequest ⟨none, [], some (-7), none⟩
        ⟨"q", true, logicalOperators, relationalOperators, none, ["id"], ["id"]⟩ ∧
    validateSearchRequest ⟨none, [], some (-5), none⟩
        ⟨"q", true, logicalOperators, relationalOperators, none, ["id"], ["id"]⟩ =
      some "limit must be null or >= 0" :=
  ⟨rfl, rfl⟩

/-- C8 amended: `LimitExceeded` references the configured ceiling in its
message; a disallowed order field, filter field, logical operator or
relational operator is named in the corresponding message (the relational
operator message also names the field); `LimitMandatory`, `InvalidLimit` and
`InvalidOffset` are constant messages that carry no offending value. -/
theorem validationErrors_diagnostics :
    (∀ (opts : config) (l : Int), l < 0 →
       validateSearchRequest ⟨none, [], some l, none⟩ opts =
         some "limit must be null or >= 0") ∧
    (∀ (opts : config) (m : Int), opts.limit = some m →
       validateSearchRequest ⟨none, [], none, none⟩ opts = some "limit is mandatory") ∧
    (∀ (opts : config) (m l : Int), opts.limit = some m → 0 ≤ l → m < l →
       validateSearchRequest ⟨none, [], some l, none⟩ opts =
         some ("limit must be between 0 and " ++ toString m)) ∧
    (∀ (opts : config) (o : Int), opts.limit = none → o < 0 →
       validateSearchRequest ⟨none, [], none, some o⟩ opts =
         some "offset must be null or >= 0") ∧
    (∀ (opts : config) (f : String) (d : OrderDirection), opts.limit = none →
       f ∉ opts.allowedOrderFields →
       validateSearchRequest ⟨none, [⟨f, d⟩], none, none⟩ opts =
         some ("field \"" ++ f ++ "\" not allowed in order by")) ∧
    (∀ (opts : config) (op : LogicalOperator), opts.limit = none →
       op ∉ opts.allowedLogicalOperators →
       validateSearchRequest ⟨some (.mk op [] []), [], none, none⟩ opts =
         some ("logical operator \"" ++ op ++ "\" not allowed")) ∧
    (∀ (opts : config) (op : LogicalOperator) (f : String) (rop : RelationalOperator)
       (v : String), opts.limit = none → op ∈ opts.allowedLogicalOperators →
       f ∉ opts.allowedFilterFields →
       validateSearchRequest ⟨some (.mk op [⟨f, rop, v⟩] []), [], none, none⟩ opts =
         some ("field \"" ++ f ++ "\" not allowed in filters")) ∧
    (∀ (opts : config) (op : LogicalOperator) (f : String) (rop : RelationalOperator)
       (v : String), opts.limit = none → op ∈ opts.allowedLogicalOperators →
       f ∈ opts.allowedFilterFields → rop ∉ opts.allowedRelationalOperators →
       validateSearchRequest ⟨some (.mk op [⟨f, rop, v⟩] []), [], none, none⟩ opts =
         some ("relational operator \"" ++ rop ++ "\" not allowed for field \"" ++ f ++ "\"")) := by
  refine ⟨?_, ?_, ?_, ?_, ?_, ?_, ?_, ?_⟩
  · intro opts l h
    simp [validateSearchRequest, ltZero, h]
  · intro opts m h
    simp [validateSearchRequest, ltZero, h]
  · intro opts m l hm h0 hlt
    have hnl : ¬ l < 0 := by omega
    simp [validateSearchRequest, ltZero, hm, hnl, hlt]
  · intro opts o hm h
    simp [validateSearchRequest, ltZero, hm, validateAfterLimit, h]
  · intro opts f d hm h
    simp [validateSearchRequest, ltZero, hm, validateAfterLimit, validateOrderBy, h]
  · intro opts op hm h
    simp [validateSearchRequest, ltZero, hm, validateAfterLimit, validateOrderBy,
      validateGroupOpt, validateGroup, h]
  · intro opts op f rop v hm hop h
    simp [validateSearchRequest, ltZero, hm, validateAfterLimit, validateOrderBy,
      validateGroupOpt, validateGroup, validateFilters, hop, h]
  · intro opts op f rop v hm hop hf h
    simp [validateSearchRequest, ltZero, hm, validateAfterLimit, validateOrderBy,
      validateGroupOpt, validateGroup, validateFilters, hop, hf, h]

/-- C4: the pipeline is atomic and reports exactly one error.  Unconditionally,
either the downstream handler runs and no error is reported, or the downstream
handler does not run, exactly one error is reported, and no specification is
attached.  Moreover: a missing-while-mandatory parameter yields exactly the
missing-parameter callback with nothing attached and no downstream call; a
decode failure yields exactly that decode error; a validation failure yields
exactly that validation error; and on success (parameter present, decode and
validation both passing) the downstream handler runs with the decoded
specification attached and the error callback is never invoked. -/
theorem searchHandlerStep_atomic (c : config)
    (decode : String → Except String SearchRequest) (query : List (String × String)) :
    (((searchHandlerStep c decode query).downstreamCalled = true ∧
      (searchHandlerStep c decode query).callbackErrors = []) ∨
     ((searchHandlerStep c decode query).downstreamCalled = false ∧
      (searchHandlerStep c decode query).callbackErrors.length = 1 ∧
      (searchHandlerStep c decode query).attachedSearch = none)) ∧
    (queryGet query c.queryParam = "" ∧ c.isSearchMandatory = true →
      searchHandlerStep c decode query =
        { callbackErrors := [.missingParam c.queryParam], downstreamCalled := false,
          attachedSearch := none, decodeInvoked := false }) ∧
    (∀ e, queryGet query c.queryParam ≠ "" →
      decode (queryGet query c.queryParam) = .error e →
      searchHandlerStep c decode query =
        { callbackErrors := [.decodeErr e], downstreamCalled := false,
          attachedSearch := none, decodeInvoked := true }) ∧
    (∀ sr v, queryGet query c.queryParam ≠ "" →
      decode (queryGet query c.queryParam) = .ok sr →
      validateSearchRequest sr c = some v →
      searchHandlerStep c decode query =
        { callbackErrors := [.validationErr v], downstreamCalled := false,
          attachedSearch := none, decodeInvoked := true }) ∧
    (∀ sr, queryGet query c.queryParam ≠ "" →
      decode (queryGet query c.queryParam) = .ok sr →
      validateSearchRequest sr c = none →
      searchHandlerStep c decode query =
        { callbackErrors := [], downstreamCalled := true,
          attachedSearch := some sr, decodeInvoked := true }) := by
  by_cases hs : queryGet query c.queryParam = ""
  · by_cases hm : c.isSearchMandatory
    · have hres : searchHandlerStep c decode query =
          { callbackErrors := [.missingParam c.queryParam], downstreamCalled := false,
            attachedSearch := none, decodeInvoked := false } := by
        simp [searchHandlerStep, hs, hm]
      refine ⟨Or.inr (by rw [hres]; exact ⟨rfl, rfl, rfl⟩), fun _ => hres, ?_, ?_, ?_⟩
      · intro e hne _; exact absurd hs hne
      · intro sr v hne _ _; exact absurd hs hne
      · intro sr hne _ _; exact absurd hs hne
    · rw [Bool.not_eq_true] at hm
      have hres : searchHandlerStep c decode query =
          { callbackErrors := [], downstreamCalled := true,
            attachedSearch := none, decodeInvoked := false } := by
        simp [searchHandlerStep, hs, hm]
      refine ⟨Or.inl (by rw [hres]; exact ⟨rfl, rfl⟩), ?_, ?_, ?_, ?_⟩
      · rintro ⟨-, hmand⟩
        rw [hm] at hmand
        exact Bool.noConfusion hmand
      · intro e hne _; exact absurd hs hne
      · intro sr v hne _ _; exact absurd hs hne
      · intro sr hne _ _; exact absurd hs hne
  · cases hd : decode (queryGet query c.queryParam) with
    | error e =>
      have hres : searchHandlerStep c decode query =
          { callbackErrors := [.decodeErr e], downstreamCalled := false,
            attachedSearch := none, decodeInvoked := true } := by
        simp [searchHandlerStep, hs, hd]
      refine ⟨Or.inr (by rw [hres]; exact ⟨rfl, rfl, rfl⟩), ?_, ?_, ?_, ?_⟩
      · rintro ⟨habs, -⟩; exact absurd habs hs
      · intro e2 _ hd2
        injection hd2 with h2
        exact h2 ▸ hres
      · intro sr v _ hd2 _
        exact Except.noConfusion hd2
      · intro sr _ hd2 _
        exact Except.noConfusion hd2
    | ok sr =>
      cases hv : validateSearchRequest sr c with
      | some v =>
        have hres : searchHandlerStep c decode query =
            { callbackErrors := [.validationErr v], downstreamCalled := false,
              attachedSearch := none, decodeInvoked := true } := by
          simp [searchHandlerStep, hs, hd, hv]
        refine ⟨Or.inr (by rw [hres]; exact ⟨rfl, rfl, rfl⟩), ?_, ?_, ?_, ?_⟩
        · rintro ⟨habs, -⟩; exact absurd habs hs
        · intro e2 _ hd2
          exact Except.noConfusion hd2
        · intro sr2 v2 _ hd2 hv2
          injection hd2 with h2
          rw [← h2] at hv2
          rw [hv] at hv2
          injection hv2 with h3
          exact h3 ▸ hres
        · intro sr2 _ hd2 hv2
          injection hd2 with h2
          rw [← h2] at hv2
          rw [hv] at hv2
          exact Option.noConfusion hv2
      | none =>
        have hres : searchHandlerStep c decode query =
            { callbackErrors := [], downstreamCalled := true,
              attachedSearch := some sr, decodeInvoked := true } := by
          simp [searchHandlerStep, hs, hd, hv]
        refine ⟨Or.inl (by rw [hres]; exact ⟨rfl, rfl⟩), ?_, ?_, ?_, ?_⟩
        · rintro ⟨habs, -⟩; exact absurd habs hs
        · intro e2 _ hd2
          exact Except.noConfusion hd2
        · intro sr2 v2 _ hd2 hv2
          injection hd2 with h2
          rw [← h2] at hv2
          rw [hv] at hv2
          exact Option.noConfusion hv2
        · intro sr2 _ hd2 _
          injection hd2 with h2
          exact h2 ▸ hres

/-- C7: when the configured query parameter is absent from the request, the
JSON decoder is never invoked; if the policy marks the search mandatory the
pipeline reports exactly the missing-parameter error and stops, and otherwise
the downstream handler runs unchanged with no specification attached. -/
theorem searchHandlerStep_absentParam (c : config)
    (decode : String → Except String SearchRequest) (query : List (String × String))
    (habs : ∀ p ∈ query, p.1 ≠ c.queryParam) :
    (searchHandlerStep c decode query).decodeInvoked = false ∧
    (c.isSearchMandatory = true →
      searchHandlerStep c decode query =
        { callbackErrors := [.missingParam c.queryParam], downstreamCalled := false,
          attachedSearch := none, decodeInvoked := false }) ∧
    (c.isSearchMandatory = false →
      searchHandlerStep c decode query =
        { callbackErrors := [], downstreamCalled := true,
          attachedSearch := none, decodeInvoked := false }) := by
  have hfind : query.find? (fun p => p.1 == c.queryParam) = none := by
    rw [List.find?_eq_none]
    intro p hp
    simp [habs p hp]
  have hs : queryGet query c.queryParam = "" := by
    unfold queryGet
    rw [hfind]
  by_cases hm : c.isSearchMandatory
  · refine ⟨?_, fun _ => ?_, ?_⟩
    · simp [searchHandlerStep, hs, hm]
    · simp [searchHandlerStep, hs, hm]
    · intro hmf
      rw [hm] at hmf
      exact Bool.noConfusion hmf
  · rw [Bool.not_eq_true] at hm
    refine ⟨?_, ?_, fun _ => ?_⟩
    · simp [searchHandlerStep, hs, hm]
    · intro hmt
      rw [hm] at hmt
      exact Bool.noConfusion hmt
    · simp [searchHandlerStep, hs, hm]

/-- Witness for `searchHandlerStep_absentParam`: a mandatory policy named "q",
a request whose query holds only an unrelated parameter, and a decoder that
would fail if it were ever invoked. -/
theorem searchHandlerStep_absentParam_witness :
    searchHandlerStep ⟨"q", true, [], [], none, [], []⟩
        (fun _ => Except.error "boom") [("other", "1")] =
      { callbackErrors := [.missingParam "q"], downstreamCalled := false,
        attachedSearch := none, decodeInvoked := false } :=
  (searchHandlerStep_absentParam ⟨"q", true, [], [], none, [], []⟩
    (fun _ => Except.error "boom") [("other", "1")] (by simp)).2.1 rfl

/-- C10: a query parameter present with the empty string as its value is
treated exactly like an absent parameter: the pipeline behaves identically to
the same request with every pair of that key removed, the decoder is never
invoked (so no decode error can arise), the non-mandatory policy continues
downstream with no specification attached, and the mandatory policy reports
the missing-parameter error. -/
theorem searchHandlerStep_emptyValue (c : config)
    (decode : String → Except String SearchRequest) (query : List (String × String))
    (hfind : query.find? (fun p => p.1 == c.queryParam) = some (c.queryParam, "")) :
    (searchHandlerStep c decode query).decodeInvoked = false ∧
    searchHandlerStep c decode query =
      searchHandlerStep c decode (query.filter (fun p => p.1 != c.queryParam)) ∧
    (c.isSearchMandatory = true →
      searchHandlerStep c decode query =
        { callbackErrors := [.missingParam c.queryParam], downstreamCalled := false,
          attachedSearch := none, decodeInvoked := false }) ∧
    (c.isSearchMandatory = false →
      searchHandlerStep c decode query =
        { callbackErrors := [], downstreamCalled := true,
          attachedSearch := none, decodeInvoked := false }) := by
  have hs : queryGet query c.queryParam = "" := by
    unfold queryGet
    rw [hfind]
  have hs2 : queryGet (query.filter (fun p => p.1 != c.queryParam)) c.queryParam = "" := by
    unfold queryGet
    rw [List.find?_eq_none.mpr ?_]
    intro p hp
    rw [List.mem_filter] at hp
    simpa using hp.2
  by_cases hm : c.isSearchMandatory
  · refine ⟨?_, ?_, fun _ => ?_, ?_⟩
    · simp [searchHandlerStep, hs, hm]
    · simp [searchHandlerStep, hs, hs2, hm]
    · simp [searchHandlerStep, hs, hm]
    · intro hmf
      rw [hm] at hmf
      exact Bool.noConfusion hmf
  · rw [Bool.not_eq_true] at hm
    refine ⟨?_, ?_, ?_, fun _ => ?_⟩
    · simp [searchHandlerStep, hs, hm]
    · simp [searchHandlerStep, hs, hs2, hm]
    · intro hmt
      rw [hm] at hmt
      exact Bool.noConfusion hmt
    · simp [searchHandlerStep, hs, hm]

/-- Witness for `searchHandlerStep_emptyValue`: a non-mandatory policy named
"q" and a request carrying the parameter "q" with empty value — the downstream
handler runs with nothing attached and the decoder is not invoked. -/
theorem searchHandlerStep_emptyValue_witness :
    searchHandlerStep ⟨"q", false, [], [], none, [], []⟩
        (fun _ => Except.error "boom") [("q", "")] =
      { callbackErrors := [], downstreamCalled := true,
        attachedSearch := none, decodeInvoked := false } :=
  (searchHandlerStep_emptyValue ⟨"q", false, [], [], none, [], []⟩
    (fun _ => Except.error "boom") [("q", "")] rfl).2.2.2 rfl

end Golazy.Qparams
